import Mathlib

/-!
Verification of the pre-exec trust pipeline of cgi-runas.

This file gives a shallow embedding, in Lean 4, of the security-relevant
functions of src/cgi-runas.c (error codes, the environment sanitiser, path
utilities, the filesystem-trust predicate, the privilege drop, and the
configuration checks), and proves or refutes the claims of the
natural-language specification against that embedding.

Strings from the C code are modelled as lists of characters; the process
environment is an association list from names to values.  Functions that in
C abort the process via panic(status, ...) are modelled as returning the
exit status; functions that loop are modelled with explicit fuel, so that
non-termination of the C loop appears as the fuel-indexed function being
none for every fuel value.
-/

/-- Convert a string literal to the character-list representation used
throughout this development. -/
def str (s : String) : List Char := s.data

/-- A process environment: an ordered association list of
(name, value) pairs, as rebuilt by the sanitiser after clearenv. -/
abbrev EnvT := List (List Char × List Char)

/-- getenv on the rebuilt environment: first binding of the name wins. -/
def env_lookup (env : EnvT) (nm : List Char) : Option (List Char) :=
  match env with
  | [] => none
  | (k, v) :: rest => if k = nm then some v else env_lookup rest nm

/-!
## Environment sanitiser (src/cgi-runas.c, lines 696..780 and 1351..1385)
-/

/-- The allow-list of environment patterns, transcribed from the global
safe_env_vars of src/cgi-runas.c.  A pattern ending in a separator matches
the whole variable name; other patterns match the beginning of the
name=value entry.  Matching is in both cases a string-prefix test on the
entry (macro STRSTARTW). -/
def safe_env_vars : List (List Char) :=
  [ str "HTTP_",
    str "SSL_",
    str "AUTH_TYPE=",
    str "CONTENT_LENGTH=",
    str "CONTENT_TYPE=",
    str "CONTEXT_DOCUMENT_ROOT=",
    str "CONTEXT_PREFIX=",
    str "DATE_GMT=",
    str "DATE_LOCAL=",
    str "DOCUMENT_NAME=",
    str "DOCUMENT_PATH_INFO=",
    str "DOCUMENT_ROOT=",
    str "DOCUMENT_URI=",
    str "GATEWAY_INTERFACE=",
    str "HTTPS=",
    str "LAST_MODIFIED=",
    str "PATH_INFO=",
    str "PATH_TRANSLATED=",
    str "QUERY_STRING=",
    str "QUERY_STRING_UNESCAPED=",
    str "REMOTE_ADDR=",
    str "REMOTE_HOST=",
    str "REMOTE_IDENT=",
    str "REMOTE_PORT=",
    str "REMOTE_USER=",
    str "REDIRECT_ERROR_NOTES=",
    str "REDIRECT_HANDLER=",
    str "REDIRECT_QUERY_STRING=",
    str "REDIRECT_REMOTE_USER=",
    str "REDIRECT_SCRIPT_FILENAME=",
    str "REDIRECT_STATUS=",
    str "REDIRECT_URL=",
    str "REQUEST_METHOD=",
    str "REQUEST_URI=",
    str "REQUEST_SCHEME=",
    str "SCRIPT_FILENAME=",
    str "SCRIPT_NAME=",
    str "SCRIPT_URI=",
    str "SCRIPT_URL=",
    str "SERVER_ADMIN=",
    str "SERVER_NAME=",
    str "SERVER_ADDR=",
    str "SERVER_PORT=",
    str "SERVER_PROTOCOL=",
    str "SERVER_SIGNATURE=",
    str "SERVER_SOFTWARE=",
    str "UNIQUE_ID=",
    str "USER_NAME=",
    str "TZ=" ]

/-- The deny-list of environment patterns, transcribed from the source
(the C global whose name joins the word for not-safe with env_vars); it
holds the single entry HTTP_PROXY, without a trailing separator, so it
prefix-matches the whole name=value entry. -/
def deny_env_vars : List (List Char) :=
  [ str "HTTP_PROXY" ]

/-- STRSTARTW(e, p) for some pattern p of the list: does any pattern of
pats prefix-match the entry e? -/
def matches_any (pats : List (List Char)) (e : List Char) : Bool :=
  pats.any (fun p => p.isPrefixOf e)

/-- strstr(e, sep) for the separator: split the entry at the first
separator character, returning the name (before it) and the value (after
it); none when the entry has no separator. -/
def split_first_eq : List Char → Option (List Char × List Char)
  | [] => none
  | c :: rest =>
    if c = '=' then some ([], rest)
    else (split_first_eq rest).map (fun p => (c :: p.1, p.2))

/-- setenv(name, value, 0): keep any existing binding of the name,
append a new binding otherwise (the environment has been cleared, so the
first binding of a name is the binding glibc reports). -/
def setenv_keep (env : EnvT) (nm vl : List Char) : EnvT :=
  match env_lookup env nm with
  | some _ => env
  | none => env ++ [(nm, vl)]

/-- setenv(name, value, 1): overwrite the first binding of the name in
place, append when the name is absent. -/
def setenv_ow : EnvT → List Char → List Char → EnvT
  | [], nm, vl => [(nm, vl)]
  | (k, w) :: rest, nm, vl =>
    if k = nm then (nm, vl) :: rest else (k, w) :: setenv_ow rest nm vl

/-- The body of the sanitiser loop of main (lines 1355..1380) for one
non-empty snapshot entry: if some allow pattern matches and no deny
pattern matches, split the entry at the first separator; skip it when the
separator is missing or leading or the value is empty, otherwise set the
variable without overwriting. -/
def step_entry (e : List Char) (env : EnvT) : EnvT :=
  if matches_any safe_env_vars e then
    if matches_any deny_env_vars e then env
    else
      match split_first_eq e with
      | none => env
      | some (nm, vl) =>
        if nm = [] then env
        else if vl = [] then env
        else setenv_keep env nm vl
  else env

/-- The sanitiser loop of main (lines 1351..1383), with explicit fuel.
The C loop advances env_p only at the bottom of the body; the length-zero
test at the top does `continue`, which re-tests the same entry, so the
model recurses on the same entry list in that case.  none means the fuel
ran out before the loop finished. -/
def env_loop_fuel : Nat → List (List Char) → EnvT → Option EnvT
  | 0, _, _ => none
  | _ + 1, [], env => some env
  | fuel + 1, e :: rest, env =>
    if e.length = 0 then env_loop_fuel fuel (e :: rest) env
    else env_loop_fuel fuel rest (step_entry e env)

/-!
## Privilege drop (src/cgi-runas.c, lines 1540..1556)
-/

/-- What the privilege-drop section of main does: either the process
terminates with an exit status, or control proceeds towards exec. -/
inductive DropOutcome where
  | exited : Nat → DropOutcome
  | proceeded : DropOutcome
deriving DecidableEq

/-- The privilege-drop sequence of main, parameterised by the return
values of the four system calls: setgroups(0, ...), setgid(gid),
setuid(uid), and the final setuid(0).  Each of the first three calls
panics with EX_OSERR (71) on a non-zero return; the final setuid(0)
panics with EX_OSERR unless it returns -1. -/
def drop_privileges (setgroups_r setgid_r setuid_r setuid0_r : Int) : DropOutcome :=
  if setgroups_r ≠ 0 then .exited 71
  else if setgid_r ≠ 0 then .exited 71
  else if setuid_r ≠ 0 then .exited 71
  else if setuid0_r ≠ -1 then .exited 71
  else .proceeded

/-!
## File metadata and the configuration checks on CGI_HANDLER
(src/cgi-runas.c, lines 512..514 and 1402..1419)
-/

/-- The fields of a stat record that the checks read.  st_mode includes
the file-type bits, as it does in the C struct. -/
structure FileStat where
  st_uid : Int
  st_gid : Int
  st_mode : Nat
deriving DecidableEq

/-- S_ISREG: the file-type bits (mask 0o170000 = 61440) equal
S_IFREG = 0o100000 = 32768. -/
def S_ISREG (m : Nat) : Bool := decide (m &&& 61440 = 32768)

/-- The stat-based checks main applies to CGI_HANDLER after is_excl_owner_f,
in source order: ASS_ISREG (EX_UNAVAILABLE = 69), ASS_UID, ASS_GID,
ASS_NWOTH (S_IWOTH = 2), ASS_NSUID (S_ISUID = 0o4000 = 2048), ASS_NSGID
(S_ISGID = 0o2000 = 1024), each EX_NOPERM = 77, and last ASS_IXOTH, which
in the source tests `st_mode ^ S_IXOTH` (bitwise XOR with S_IXOTH = 1) and
panics with EX_NOPERM when that value is non-zero.  some c models a panic
with exit status c; none means every check passed. -/
def check_cgi_handler (fs : FileStat) : Option Nat :=
  if ¬ S_ISREG fs.st_mode then some 69
  else if fs.st_uid ≠ 0 then some 77
  else if fs.st_gid ≠ 0 then some 77
  else if fs.st_mode &&& 2 ≠ 0 then some 77
  else if fs.st_mode &&& 2048 ≠ 0 then some 77
  else if fs.st_mode &&& 1024 ≠ 0 then some 77
  else if fs.st_mode ^^^ 1 ≠ 0 then some 77
  else none

/-!
## getenv_f (src/cgi-runas.c, lines 1002..1007)
-/

/-- Result of a C helper that either returns a value or exits the
process with a status. -/
inductive GetenvResult where
  | value : List Char → GetenvResult
  | exit : Nat → GetenvResult
deriving DecidableEq

/-- getenv_f: read a variable from the (sanitised) environment and panic
via ASSERT, that is with EX_UNAVAILABLE = 69, when it is unset or empty. -/
def getenv_f (env : EnvT) (var : List Char) : GetenvResult :=
  match env_lookup env var with
  | none => .exit 69
  | some v => if v = [] then .exit 69 else .value v

/-!
## path_max (src/cgi-runas.c, lines 1081..1102)
-/

/-- path_max, parameterised by whether stat(path) succeeds, by the value
of the compile-time PATH_MAX, and by what pathconf(dir, _PC_PATH_MAX)
returns (-1 when indeterminate).  The choice of dir (the path itself when
it is a directory, else dirname(path)) only affects which directory
pathconf is asked about, so it is absorbed into the oracle value.
Faithful to the source: the first branch lowers the 256 fallback to the
pathconf value when 0 <= pathconf < 256, and the second branch replaces
the result by PATH_MAX whenever -1 < PATH_MAX < pathconf. -/
def path_max (stat_ok : Bool) (pathMax pcPathMax : Int) : Int :=
  if stat_ok = false then -1
  else
    let r0 : Int := 256
    let r1 := if -1 < pcPathMax ∧ pcPathMax < r0 then pcPathMax else r0
    if -1 < pathMax ∧ pathMax < pcPathMax then pathMax else r1

/-- Modelled from the spec: the formula the specification states for
path_max, namely min(PATH_MAX if finite, pathconf if finite and
non-negative, 256), with an infinite or indeterminate limit simply left
out of the minimum. -/
def path_max_spec (pathMax pcPathMax : Int) : Int :=
  min (min (if -1 < pathMax then pathMax else 256)
           (if -1 < pcPathMax then pcPathMax else 256)) 256

/-!
## is_subdir_f (src/cgi-runas.c, lines 1201..1205)
-/

/-- is_subdir_f returns (rather than panicking) exactly when its ASSERT
condition holds; this Bool is that condition.  The source reads
sub[strlen(super)] and then asserts
STRSTARTW(sub, super) || sep == separator || sep == NUL.
Reading at an index up to strlen(sub) sees the characters of sub followed
by the terminating NUL; a read past the terminator (sub shorter than
super) is undefined in C and is modelled as NUL here. -/
def is_subdir_f (sub super : List Char) : Bool :=
  let sep := (sub ++ [Char.ofNat 0]).getD super.length (Char.ofNat 0)
  super.isPrefixOf sub || decide (sep = '/') || decide (sep = Char.ofNat 0)

/-- Modelled from the spec: is_within(child, parent) is true iff child
equals parent or child starts with parent followed by a path separator. -/
def is_within_spec (child parent : List Char) : Bool :=
  decide (child = parent) || (parent ++ ['/']).isPrefixOf child

/-!
## dirname and dir_names (src/cgi-runas.c, lines 965..985)

dir_names calls the libc dirname (via libgen.h); the model below follows
the glibc XPG implementation of dirname step by step.
-/

/-- Index of the last occurrence of the path separator at an index
strictly below n, as memrchr(p, c, n) computes it. -/
def lastSlashLt (p : List Char) : Nat → Option Nat
  | 0 => none
  | k + 1 => if p.getD k ' ' = '/' then some k else lastSlashLt p k

/-- strrchr(p, c) as an index: the last occurrence of the separator in p. -/
def lastSlash (p : List Char) : Option Nat := lastSlashLt p p.length

/-- The runp loop of glibc dirname: walk down from index i while the
character before the current index is a separator; returns the least j
such that every character at an index in [j, i) is a separator. -/
def runStart (p : List Char) : Nat → Nat
  | 0 => 0
  | k + 1 => if p.getD k ' ' = '/' then runStart p k else k + 1

/-- glibc (XPG) dirname.  Finds the last separator; if that separator is
the final character and not the first, steps over the trailing run of
separators and re-searches before it; then truncates at the start of the
run of separators ending at the found index, with the special cases that
yield the one- or two-separator prefix when the run reaches the start of
the string, and the relative root when there is no separator at all. -/
def dirname_c (p : List Char) : List Char :=
  let ls1 : Option Nat :=
    match lastSlash p with
    | none => none
    | some i =>
      if i ≠ 0 ∧ i + 1 = p.length then
        let j := runStart p i
        if j ≠ 0 then lastSlashLt p j else some i
      else some i
  match ls1 with
  | none => str "."
  | some i =>
    let j := runStart p i
    if j = 0 then
      if i = 1 then p.take 2 else p.take 1
    else p.take j

/-- The do-while termination test of dir_names, negated: the loop stops
after pushing d when d equals the stop directory (when one was given), the
filesystem root, or the relative root. -/
def at_stop (stop : Option (List Char)) (d : List Char) : Bool :=
  (match stop with | none => false | some s => decide (d = s))
  || decide (d = str "/") || decide (d = str ".")

/-- The dir_names loop, with explicit fuel (the C loop can fail to
terminate only on non-canonical input such as a double-separator root, and
can otherwise only stop by reaching the termination test).  The returned
list is in push order: parent(start) first.  The C linked list stores
these same directories with the most recently pushed at the head, so the
consumer traverses exactly this list in reverse. -/
def dir_names : Nat → List Char → Option (List Char) → Option (List (List Char))
  | 0, _, _ => none
  | fuel + 1, dir, stop =>
    if at_stop stop (dirname_c dir) then some [dirname_c dir]
    else (dir_names fuel (dirname_c dir) stop).map (fun l => dirname_c dir :: l)

/-!
## is_excl_owner_f (src/cgi-runas.c, lines 1165..1187)
-/

/-- The per-directory checks of the is_excl_owner_f loop, against a stat
oracle: ASS_STAT panics with EX_NOINPUT = 66 when stat fails, ASS_UID and
ASS_GID with EX_NOPERM = 77 on an ownership mismatch, ASS_NWOTH with
EX_NOPERM when the world-write bit (S_IWOTH = 2) is set. -/
def check_dir (st : List Char → Option FileStat) (uid gid : Int) (d : List Char) : Option Nat :=
  match st d with
  | none => some 66
  | some fs =>
    if fs.st_uid ≠ uid then some 77
    else if fs.st_gid ≠ gid then some 77
    else if fs.st_mode &&& 2 ≠ 0 then some 77
    else none

/-- The traversal of is_excl_owner_f over the directory list, stopping at
the first failing check; none means every directory passed. -/
def is_excl_owner_run (st : List Char → Option FileStat) (uid gid : Int) :
    List (List Char) → Option Nat
  | [] => none
  | d :: rest =>
    match check_dir st uid gid d with
    | some c => some c
    | none => is_excl_owner_run st uid gid rest

/-- is_excl_owner_f: build the directory list with dir_names and check
each directory, traversing the linked list from the most recently pushed
directory backwards (hence the reverse).  The outer none stands for the
fuel running out in dir_names. -/
def is_excl_owner_f (fuel : Nat) (st : List Char → Option FileStat) (uid gid : Int)
    (start : List Char) (stop : Option (List Char)) : Option (Option Nat) :=
  (dir_names fuel start stop).map (fun l => is_excl_owner_run st uid gid l.reverse)

/-- A concrete filesystem for exercising is_excl_owner_f: every directory
is root-owned with a clean mode except /a/b, which is owned by 1000:1000. -/
def stat_oracle_ab (d : List Char) : Option FileStat :=
  if d = str "/a/b" then some ⟨1000, 1000, 16877⟩ else some ⟨0, 0, 16877⟩

/-!
## The suffix check (src/cgi-runas.c, lines 1612..1616)
-/

/-- strrchr(p, c), returning the suffix of p that starts at the last
occurrence of c, or none when c does not occur. -/
def strrchr_tail (c : Char) : List Char → Option (List Char)
  | [] => none
  | a :: rest =>
    match strrchr_tail c rest with
    | some t => some t
    | none => if a = c then some (a :: rest) else none

/-- The suffix check of main: strrchr the whole canonical script path for
the last dot; the check succeeds when a dot exists and the tail from it
equals SCRIPT_SUFFIX (both ASSERTs pass). -/
def suffix_check_main (path sfx : List Char) : Bool :=
  match strrchr_tail '.' path with
  | none => false
  | some t => decide (t = sfx)

/-- The part of a path after its last separator (the whole path when it
has no separator). -/
def final_component (p : List Char) : List Char :=
  match strrchr_tail '/' p with
  | none => p
  | some t => t.drop 1

/-- Modelled from the spec: the final filename component ends in
SCRIPT_SUFFIX as an exact match on the last dot-separated tail of that
component. -/
def suffix_check_spec (path sfx : List Char) : Bool :=
  match strrchr_tail '.' (final_component path) with
  | none => false
  | some t => decide (t = sfx)

/-!
## Helper lemmas
-/

/-- The sanitiser loop never gets past an empty snapshot entry: the
length-zero test does `continue` without advancing the entry pointer, so
no amount of fuel reaches the entries after it. -/
theorem env_loop_fuel_empty_entry (rest : List (List Char)) (env : EnvT) :
    ∀ fuel, env_loop_fuel fuel ([] :: rest) env = none := by
  intro fuel
  induction fuel with
  | zero => rfl
  | succ f ih => simpa [env_loop_fuel] using ih


/-!
## Claim C1
-/

/-- Claim C1 (refuted, code bug): the containment check of is_subdir_f is
claimed to succeed iff the child equals the parent or starts with the
parent followed by a path separator, and in particular to fail on the
canonical child /srv/homeevil/x against the parent /srv/home.  The source
joins the prefix test and the separator test with a disjunction instead of
a conjunction, so the bare prefix match already passes and the check
succeeds on exactly that input, although the claimed semantics rejects
it. -/
theorem is_subdir_f_accepts_sibling_escape :
    is_subdir_f (str "/srv/homeevil/x") (str "/srv/home") = true ∧
    is_within_spec (str "/srv/homeevil/x") (str "/srv/home") = false := by
  decide

/-!
## Claim C2
-/

/-- Claim C2 (confirmed): control proceeds past the privilege-drop section
towards exec exactly when the three drop stages return 0 and the final
setuid(0) fails with -1; a failure of any of the three stages exits with
status 71, and so does a final setuid(0) that does not fail. -/
theorem drop_privileges_no_root_regain (a b c d : Int) :
    (drop_privileges a b c d = DropOutcome.proceeded ↔
      (a = 0 ∧ b = 0 ∧ c = 0 ∧ d = -1)) ∧
    ((a ≠ 0 ∨ b ≠ 0 ∨ c ≠ 0) → drop_privileges a b c d = DropOutcome.exited 71) ∧
    (a = 0 → b = 0 → c = 0 → d ≠ -1 →
      drop_privileges a b c d = DropOutcome.exited 71) := by
  unfold drop_privileges
  split_ifs <;> simp_all

/-- Witness for C2: with all three stages succeeding and setuid(0)
returning -1 the drop proceeds; with a failing setgroups, or with a
succeeding setuid(0), the process exits with status 71. -/
theorem drop_privileges_no_root_regain_witness :
    drop_privileges 0 0 0 (-1) = DropOutcome.proceeded ∧
    drop_privileges 1 0 0 (-1) = DropOutcome.exited 71 ∧
    drop_privileges 0 0 0 0 = DropOutcome.exited 71 :=
  ⟨(drop_privileges_no_root_regain 0 0 0 (-1)).1.mpr ⟨rfl, rfl, rfl, rfl⟩,
   (drop_privileges_no_root_regain 1 0 0 (-1)).2.1 (Or.inl (by decide)),
   (drop_privileges_no_root_regain 0 0 0 0).2.2 rfl rfl rfl (by decide)⟩

/-!
## Claim C5
-/

/-- Claim C5 (refuted, code bug): for a CGI_HANDLER that is a regular file
owned by UID 0 and GID 0 with mode 0755 (st_mode = 0o100755 = 33261), the
claim says every handler check succeeds and the NOPERM branch is
unreachable.  The source macro ASS_IXOTH computes st_mode XOR S_IXOTH
instead of testing the world-execute bit, which is non-zero for every real
st_mode, so this very input panics with EX_NOPERM = 77. -/
theorem check_cgi_handler_rejects_mode_0755 :
    check_cgi_handler ⟨0, 0, 33261⟩ = some 77 ∧
    check_cgi_handler ⟨0, 0, 33261⟩ ≠ none := by
  decide

/-!
## Claim C6
-/

/-- Counterexample for C6: on an environment without PATH_TRANSLATED the
resolver exits with status 69, not with the claimed 66. -/
theorem getenv_f_unset_counterexample :
    getenv_f [] (str "PATH_TRANSLATED") = GetenvResult.exit 69 ∧
    getenv_f [] (str "PATH_TRANSLATED") ≠ GetenvResult.exit 66 := by
  decide

/-- Claim C6 (corrected): whenever PATH_TRANSLATED is absent from the
sanitised environment or bound to the empty string, getenv_f terminates
the process, but with exit status 69 (EX_UNAVAILABLE, via ASSERT), not 66:
the source never routes this condition through ERR_NOINPUT. -/
theorem getenv_f_unset_or_empty_exits_69 (env : EnvT)
    (h : env_lookup env (str "PATH_TRANSLATED") = none ∨
         env_lookup env (str "PATH_TRANSLATED") = some []) :
    getenv_f env (str "PATH_TRANSLATED") = GetenvResult.exit 69 := by
  unfold getenv_f
  rcases h with h | h
  · rw [h]
  · rw [h]
    rfl

/-- Witness for C6: the empty environment lacks PATH_TRANSLATED and the
resolver exits with status 69 on it. -/
theorem getenv_f_unset_or_empty_exits_69_witness :
    getenv_f [] (str "PATH_TRANSLATED") = GetenvResult.exit 69 :=
  getenv_f_unset_or_empty_exits_69 [] (Or.inl rfl)

/-!
## Claim C8
-/

/-- Claim C8 (refuted, code bug): the rebuild loop is claimed to skip an
empty snapshot entry and continue with the entries after it.  In the
source the skip is a `continue` that does not advance the entry pointer,
so on the snapshot ["", "HTTP_HOST=x"] the loop re-tests the empty entry
forever: no fuel value completes the loop. -/
theorem env_loop_diverges_on_empty_entry :
    ∀ fuel, env_loop_fuel fuel (str "" :: [str "HTTP_HOST=x"]) [] = none := by
  intro fuel
  exact env_loop_fuel_empty_entry [str "HTTP_HOST=x"] [] fuel

/-!
## Claim C9
-/

/-- Counterexample for C9: with PATH_MAX = 4096 and a pathconf result of
8192 on a path whose stat succeeds, the source returns 4096, while the
claimed formula min(PATH_MAX, pathconf, 256) yields 256. -/
theorem path_max_counterexample :
    path_max true 4096 8192 = 4096 ∧
    path_max_spec 4096 8192 = 256 ∧
    (4096 : Int) ≠ 256 := by
  decide

/-- Claim C9 (corrected): when stat succeeds, path_max returns pathconf
clamped as min(pathconf, 256) only while pathconf does not exceed a finite
PATH_MAX; an indeterminate pathconf yields the fallback 256 regardless of
PATH_MAX; and a pathconf result above a finite PATH_MAX makes the function
return PATH_MAX itself, which can exceed 256. -/
theorem path_max_amended (P pc : Int) :
    (pc ≤ -1 → path_max true P pc = 256) ∧
    (-1 < pc → ¬ (-1 < P ∧ P < pc) → path_max true P pc = min pc 256) ∧
    (-1 < P → P < pc → path_max true P pc = P) := by
  unfold path_max
  simp only [Bool.true_eq_false, if_false]
  refine ⟨?_, ?_, ?_⟩
  · intro h1
    split_ifs <;> omega
  · intro h1 h2
    rw [Int.min_def]
    split_ifs <;> omega
  · intro h1 h2
    split_ifs <;> omega

/-- Witness for C9: an indeterminate pathconf yields 256; a pathconf of
100 below PATH_MAX = 4096 yields min(100, 256); a pathconf of 8192 above
PATH_MAX = 4096 yields 4096. -/
theorem path_max_amended_witness :
    path_max true 4096 (-1) = 256 ∧
    path_max true 4096 100 = min 100 256 ∧
    path_max true 4096 8192 = 4096 :=
  ⟨(path_max_amended 4096 (-1)).1 (by decide),
   (path_max_amended 4096 100).2.1 (by decide) (by decide),
   (path_max_amended 4096 8192).2.2 (by decide) (by decide)⟩

/-!
## Claim C10
-/

/-- Claim C10 (confirmed): the deny-list entry HTTP_PROXY has no trailing
separator and therefore prefix-matches the whole name=value entry: every
snapshot entry beginning with the characters HTTP_PROXY, including
extensions such as HTTP_PROXY_AUTH or HTTP_PROXYX, is skipped by the
sanitiser (the environment is left unchanged by its processing step), even
though every such entry matches the HTTP_ allow prefix. -/
theorem deny_http_proxy_filters_extensions (e : List Char) (env : EnvT)
    (h : (str "HTTP_PROXY").isPrefixOf e = true) :
    step_entry e env = env ∧ matches_any safe_env_vars e = true := by
  have hsafe : matches_any safe_env_vars e = true := by
    have hp : (str "HTTP_").isPrefixOf e = true := by
      rw [List.isPrefixOf_iff_prefix] at h ⊢
      exact List.IsPrefix.trans (by decide) h
    unfold matches_any
    rw [List.any_eq_true]
    exact ⟨str "HTTP_", by decide, hp⟩
  have hdeny : matches_any deny_env_vars e = true := by
    unfold matches_any deny_env_vars
    simp [h]
  refine ⟨?_, hsafe⟩
  unfold step_entry
  rw [hsafe, hdeny]
  simp

/-- Witness for C10: the entry HTTP_PROXY_AUTH=x is skipped although it
matches the HTTP_ allow prefix. -/
theorem deny_http_proxy_filters_extensions_witness :
    step_entry (str "HTTP_PROXY_AUTH=x") [] = [] ∧
    matches_any safe_env_vars (str "HTTP_PROXY_AUTH=x") = true :=
  deny_http_proxy_filters_extensions (str "HTTP_PROXY_AUTH=x") [] (by decide)

/-!
## Claim C3: helper lemmas about the sanitiser
-/

/-- Splitting an entry at its first separator reconstructs the entry. -/
theorem split_first_eq_append (e nm vl : List Char)
    (h : split_first_eq e = some (nm, vl)) : e = nm ++ '=' :: vl := by
  induction e generalizing nm vl with
  | nil => simp [split_first_eq] at h
  | cons c rest ih =>
    unfold split_first_eq at h
    split at h
    next hc =>
      simp only [Option.some.injEq, Prod.mk.injEq] at h
      rw [← h.1, ← h.2, hc]
      rfl
    next hc =>
      cases hr : split_first_eq rest with
      | none => rw [hr] at h; simp at h
      | some p =>
        obtain ⟨pn, pv⟩ := p
        rw [hr] at h
        simp only [Option.map_some', Option.some.injEq, Prod.mk.injEq] at h
        obtain ⟨h1, h2⟩ := h
        rw [← h1, ← h2, ih pn pv hr]
        rfl

/-- A binding of the non-overwriting setenv is either the new pair or was
already in the environment. -/
theorem mem_setenv_keep (env : EnvT) (nm vl n v : List Char)
    (h : (n, v) ∈ setenv_keep env nm vl) :
    (n, v) ∈ env ∨ (n = nm ∧ v = vl) := by
  unfold setenv_keep at h
  cases hl : env_lookup env nm with
  | some w => rw [hl] at h; exact Or.inl h
  | none =>
    rw [hl] at h
    rcases List.mem_append.mp h with h1 | h1
    · exact Or.inl h1
    · simp only [List.mem_singleton, Prod.mk.injEq] at h1
      exact Or.inr h1

/-- A binding of the overwriting setenv is either the new pair or was
already in the environment. -/
theorem mem_setenv_ow (env : EnvT) (nm vl n v : List Char)
    (h : (n, v) ∈ setenv_ow env nm vl) :
    (n = nm ∧ v = vl) ∨ (n, v) ∈ env := by
  induction env with
  | nil =>
    simp only [setenv_ow, List.mem_singleton, Prod.mk.injEq] at h
    exact Or.inl h
  | cons kw rest ih =>
    obtain ⟨k, w⟩ := kw
    unfold setenv_ow at h
    split at h
    · rcases List.mem_cons.mp h with h1 | h1
      · exact Or.inl (Prod.mk.injEq .. ▸ h1 : _ ∧ _)
      · exact Or.inr (List.mem_cons_of_mem _ h1)
    · rcases List.mem_cons.mp h with h1 | h1
      · exact Or.inr (h1 ▸ List.mem_cons_self _ _)
      · rcases ih h1 with h2 | h2
        · exact Or.inl h2
        · exact Or.inr (List.mem_cons_of_mem _ h2)

/-- Looking up the overwritten name after the overwriting setenv yields
the new value. -/
theorem lookup_setenv_ow (env : EnvT) (nm vl : List Char) :
    env_lookup (setenv_ow env nm vl) nm = some vl := by
  induction env with
  | nil => simp [setenv_ow, env_lookup]
  | cons kw rest ih =>
    obtain ⟨k, w⟩ := kw
    unfold setenv_ow
    split
    next hk => simp [env_lookup]
    next hk => simpa [env_lookup, hk] using ih

/-- A binding added by one sanitiser step comes from the processed entry:
it reconstructs the entry around a separator, and the entry matched some
allow pattern and no deny pattern. -/
theorem step_entry_mem (e : List Char) (env : EnvT) (n v : List Char)
    (h : (n, v) ∈ step_entry e env) :
    (n, v) ∈ env ∨
      (e = n ++ '=' :: v ∧ matches_any safe_env_vars e = true ∧
        matches_any deny_env_vars e = false) := by
  unfold step_entry at h
  split at h
  next hsafe =>
    split at h
    next hdeny => exact Or.inl h
    next hdeny =>
      split at h
      next hsp => exact Or.inl h
      next nm vl hsp =>
        split at h
        next => exact Or.inl h
        next h1 =>
          split at h
          next => exact Or.inl h
          next h2 =>
            rcases mem_setenv_keep env nm vl n v h with h3 | ⟨h3, h4⟩
            · exact Or.inl h3
            · refine Or.inr ⟨?_, hsafe, by simpa using hdeny⟩
              rw [h3, h4]
              exact split_first_eq_append e nm vl hsp
  next hsafe => exact Or.inl h

/-- Loop invariant of the sanitiser rebuild loop: every binding of the
produced environment was already present before the loop ran, or comes
from one of the snapshot entries, reconstructs that entry, and that entry
matched the allow-list and not the deny-list. -/
theorem env_loop_mem (fuel : Nat) :
    ∀ (entries : List (List Char)) (env out : EnvT),
      env_loop_fuel fuel entries env = some out →
      ∀ n v, (n, v) ∈ out →
        (n, v) ∈ env ∨
          ∃ e, e ∈ entries ∧ e = n ++ '=' :: v ∧
            matches_any safe_env_vars e = true ∧
            matches_any deny_env_vars e = false := by
  induction fuel with
  | zero => intro entries env out h; simp [env_loop_fuel] at h
  | succ f ih =>
    intro entries env out h n v hm
    cases entries with
    | nil =>
      simp only [env_loop_fuel, Option.some.injEq] at h
      exact Or.inl (h ▸ hm)
    | cons e rest =>
      unfold env_loop_fuel at h
      split at h
      · rcases ih (e :: rest) env out h n v hm with h1 | ⟨e1, he1, h2⟩
        · exact Or.inl h1
        · exact Or.inr ⟨e1, he1, h2⟩
      · rcases ih rest (step_entry e env) out h n v hm with h1 | ⟨e1, he1, h2⟩
        · rcases step_entry_mem e env n v h1 with h2 | h2
          · exact Or.inl h2
          · exact Or.inr ⟨e, List.mem_cons_self _ _, h2⟩
        · exact Or.inr ⟨e1, List.mem_cons_of_mem _ he1, h2⟩

/-- Counterexample for C3: the sanitiser completes on the empty snapshot,
and the produced environment contains the forced binding of PATH, whose
entry PATH=/usr/bin:/bin matches no allow-list pattern; so it is false
that every variable of the produced environment matches some allow-list
pattern. -/
theorem sanitize_env_path_counterexample :
    env_loop_fuel 1 [] [] = some [] ∧
    (str "PATH", str "/usr/bin:/bin") ∈ setenv_ow [] (str "PATH") (str "/usr/bin:/bin") ∧
    matches_any safe_env_vars (str "PATH" ++ '=' :: str "/usr/bin:/bin") = false := by
  decide

/-- Claim C3 (corrected): for every snapshot E on which the sanitiser loop
completes, the produced environment (after the final overwriting setenv of
PATH) is a subset of E plus the binding of PATH to SECURE_PATH, every
variable other than the forced PATH matches some allow-list pattern and no
deny-list pattern (as prefix matches on the reconstructed name=value
entry), and PATH is bound to SECURE_PATH.  The original claim also made
PATH itself match an allow pattern, which the counterexample refutes. -/
theorem sanitize_env_invariant (E : List (List Char)) (sp : List Char) (fuel : Nat)
    (env0 final : EnvT)
    (hrun : env_loop_fuel fuel E [] = some env0)
    (hfin : final = setenv_ow env0 (str "PATH") sp) :
    (∀ n v, (n, v) ∈ final → (n = str "PATH" ∧ v = sp) ∨ (n ++ '=' :: v) ∈ E) ∧
    (∀ n v, (n, v) ∈ final → n ≠ str "PATH" →
        matches_any safe_env_vars (n ++ '=' :: v) = true ∧
        matches_any deny_env_vars (n ++ '=' :: v) = false) ∧
    env_lookup final (str "PATH") = some sp := by
  subst hfin
  refine ⟨?_, ?_, lookup_setenv_ow env0 (str "PATH") sp⟩
  · intro n v hm
    rcases mem_setenv_ow env0 (str "PATH") sp n v hm with h1 | h1
    · exact Or.inl h1
    · rcases env_loop_mem fuel E [] env0 hrun n v h1 with h2 | ⟨e, he, hee, _⟩
      · simp at h2
      · exact Or.inr (hee ▸ he)
  · intro n v hm hne
    rcases mem_setenv_ow env0 (str "PATH") sp n v hm with h1 | h1
    · exact absurd h1.1 hne
    · rcases env_loop_mem fuel E [] env0 hrun n v h1 with h2 | ⟨e, he, hee, hs, hd⟩
      · simp at h2
      · exact ⟨hee ▸ hs, hee ▸ hd⟩

/-- Witness for C3: on the snapshot [HTTP_HOST=good, LD_PRELOAD=/x] with
SECURE_PATH = /usr/bin:/bin the loop completes with the single binding of
HTTP_HOST, and the final environment [HTTP_HOST=good, PATH=/usr/bin:/bin]
satisfies the invariant. -/
theorem sanitize_env_invariant_witness :
    (∀ n v, (n, v) ∈ [(str "HTTP_HOST", str "good"), (str "PATH", str "/usr/bin:/bin")] →
        (n = str "PATH" ∧ v = str "/usr/bin:/bin") ∨
        (n ++ '=' :: v) ∈ [str "HTTP_HOST=good", str "LD_PRELOAD=/x"]) ∧
    (∀ n v, (n, v) ∈ [(str "HTTP_HOST", str "good"), (str "PATH", str "/usr/bin:/bin")] →
        n ≠ str "PATH" →
        matches_any safe_env_vars (n ++ '=' :: v) = true ∧
        matches_any deny_env_vars (n ++ '=' :: v) = false) ∧
    env_lookup [(str "HTTP_HOST", str "good"), (str "PATH", str "/usr/bin:/bin")]
      (str "PATH") = some (str "/usr/bin:/bin") :=
  sanitize_env_invariant [str "HTTP_HOST=good", str "LD_PRELOAD=/x"]
    (str "/usr/bin:/bin") 3 [(str "HTTP_HOST", str "good")]
    [(str "HTTP_HOST", str "good"), (str "PATH", str "/usr/bin:/bin")]
    (by decide) (by decide)

/-!
## Claim C4
-/

/-- Counterexample for C4: for the start /a/b/c with stop /a/b, the only
ancestor strictly between start and stop is none at all, yet dir_names
returns the one-element list holding the stop directory itself, and
is_excl_owner_f applies the ownership check to it: with a filesystem in
which /a/b is owned by 1000:1000 and everything else by root, the check
panics with EX_NOPERM = 77 although by the claim nothing should have been
inspected. -/
theorem dir_names_includes_stop_counterexample :
    dir_names 5 (str "/a/b/c") (some (str "/a/b")) = some [str "/a/b"] ∧
    is_excl_owner_f 5 stat_oracle_ab 0 0 (str "/a/b/c") (some (str "/a/b"))
      = some (some 77) := by
  decide

/-- Claim C4 (corrected): when the dir_names loop completes, the list it
returns is the chain parent(start), parent(parent(start)), and so on,
where every element before the last is neither the stop directory nor a
filesystem or relative root, and the last element IS the terminating
directory: the enumeration stops at the stop directory inclusively, so
is_excl_owner_f does apply the ownership and mode check to the stop
directory itself. -/
theorem dir_names_chain (fuel : Nat) :
    ∀ (start : List Char) (stop : Option (List Char)) (L : List (List Char)),
      dir_names fuel start stop = some L →
      L ≠ [] ∧
      (∀ i, i < L.length → L.getD i [] = dirname_c^[i + 1] start) ∧
      (∀ i, i + 1 < L.length → at_stop stop (L.getD i []) = false) ∧
      at_stop stop (L.getD (L.length - 1) []) = true := by
  induction fuel with
  | zero => intro start stop L h; simp [dir_names] at h
  | succ f ih =>
    intro start stop L h
    unfold dir_names at h
    split at h
    next hstop =>
      simp only [Option.some.injEq] at h
      subst h
      refine ⟨by simp, ?_, ?_, by simpa using hstop⟩
      · intro i hi
        have hz : i = 0 := by simpa using Nat.lt_one_iff.mp (by simpa using hi)
        subst hz
        simp
      · intro i hi
        simp at hi
    next hstop =>
      cases hr : dir_names f (dirname_c start) stop with
      | none => rw [hr] at h; simp at h
      | some l =>
        rw [hr] at h
        simp only [Option.map_some', Option.some.injEq] at h
        subst h
        obtain ⟨hne, hidx, hnt, hlast⟩ := ih (dirname_c start) stop l hr
        refine ⟨by simp, ?_, ?_, ?_⟩
        · intro i hi
          cases i with
          | zero => simp
          | succ j =>
            have hj : j < l.length := by simpa using hi
            rw [List.getD_cons_succ, hidx j hj, ← Function.iterate_succ_apply]
        · intro i hi
          cases i with
          | zero =>
            simpa using Bool.not_eq_true _ ▸ hstop
          | succ j =>
            have hj : j + 1 < l.length := by simpa using hi
            simpa using hnt j hj
        · obtain ⟨m, hm⟩ : ∃ m, l.length = m + 1 := by
            cases l with
            | nil => exact absurd rfl hne
            | cons a t => exact ⟨t.length, rfl⟩
          have h1 : (dirname_c start :: l).length - 1 = m + 1 := by simp [hm]
          rw [h1, List.getD_cons_succ]
          have h2 : l.length - 1 = m := by omega
          rw [← h2]
          exact hlast

/-- Witness for C4: for the start /a/b/c/d with stop /a, dir_names yields
the chain [/a/b/c, /a/b, /a]: iterated parents, non-terminal before the
last element, and the stop directory as the final, included element. -/
theorem dir_names_chain_witness :
    ([str "/a/b/c", str "/a/b", str "/a"] : List (List Char)) ≠ [] ∧
    (∀ i, i < ([str "/a/b/c", str "/a/b", str "/a"] : List (List Char)).length →
      ([str "/a/b/c", str "/a/b", str "/a"] : List (List Char)).getD i []
        = dirname_c^[i + 1] (str "/a/b/c/d")) ∧
    (∀ i, i + 1 < ([str "/a/b/c", str "/a/b", str "/a"] : List (List Char)).length →
      at_stop (some (str "/a"))
        (([str "/a/b/c", str "/a/b", str "/a"] : List (List Char)).getD i []) = false) ∧
    at_stop (some (str "/a"))
      (([str "/a/b/c", str "/a/b", str "/a"] : List (List Char)).getD
        (([str "/a/b/c", str "/a/b", str "/a"] : List (List Char)).length - 1) []) = true :=
  dir_names_chain 5 (str "/a/b/c/d") (some (str "/a"))
    [str "/a/b/c", str "/a/b", str "/a"] (by decide)

/-!
## Claim C7: helper lemmas about strrchr
-/

/-- When the separator occurs in the right part, the last occurrence in a
concatenation is the last occurrence in the right part. -/
theorem strrchr_tail_append_isSome (c : Char) (xs ys : List Char)
    (h : (strrchr_tail c ys).isSome = true) :
    strrchr_tail c (xs ++ ys) = strrchr_tail c ys := by
  induction xs with
  | nil => rfl
  | cons a xs ih =>
    obtain ⟨t, ht⟩ := Option.isSome_iff_exists.mp h
    show (match strrchr_tail c (xs ++ ys) with
          | some t => some t
          | none => if a = c then some (a :: (xs ++ ys)) else none) = strrchr_tail c ys
    rw [ih, ht]

/-- When the separator does not occur in the right part, the tail from
the last occurrence in a concatenation is the tail within the left part
extended by the right part. -/
theorem strrchr_tail_append_none (c : Char) (xs ys : List Char)
    (h : strrchr_tail c ys = none) :
    strrchr_tail c (xs ++ ys) = (strrchr_tail c xs).map (fun t => t ++ ys) := by
  induction xs with
  | nil => simpa using h
  | cons a xs ih =>
    show (match strrchr_tail c (xs ++ ys) with
          | some t => some t
          | none => if a = c then some (a :: (xs ++ ys)) else none) =
         (strrchr_tail c (a :: xs)).map (fun t => t ++ ys)
    rw [ih]
    cases hx : strrchr_tail c xs with
    | some t =>
      show some (t ++ ys) = (strrchr_tail c (a :: xs)).map (fun t => t ++ ys)
      unfold strrchr_tail
      rw [hx]
      rfl
    | none =>
      show (if a = c then some (a :: (xs ++ ys)) else none) =
           (strrchr_tail c (a :: xs)).map (fun t => t ++ ys)
      unfold strrchr_tail
      rw [hx]
      by_cases hac : a = c
      · rw [if_pos hac, if_pos hac]
        rfl
      · rw [if_neg hac, if_neg hac]
        rfl

/-- The tail returned by strrchr is a suffix of the searched string and
starts with the searched character. -/
theorem strrchr_tail_shape (c : Char) (p t : List Char)
    (h : strrchr_tail c p = some t) :
    (∃ q, p = q ++ t) ∧ ∃ r, t = c :: r := by
  induction p generalizing t with
  | nil => simp [strrchr_tail] at h
  | cons a rest ih =>
    unfold strrchr_tail at h
    cases hr : strrchr_tail c rest with
    | some u =>
      simp only [hr, Option.some.injEq] at h
      subst h
      obtain ⟨⟨q, hq⟩, hc⟩ := ih u hr
      exact ⟨⟨a :: q, by rw [hq]; rfl⟩, hc⟩
    | none =>
      simp only [hr] at h
      split at h
      next hac =>
        simp only [Option.some.injEq] at h
        exact ⟨⟨[], by rw [← h]; rfl⟩, rest, by rw [← h, hac]⟩
      next hac => simp at h

/-- Claim C7 (confirmed): since SCRIPT_SUFFIX is a filename suffix and so
holds no path separator, searching the whole canonical path for the last
dot (as main does) and searching only the final filename component (as the
spec words it) accept exactly the same paths: dots in earlier directory
components never affect the outcome, because a tail that reaches back past
the final separator contains that separator and can never equal the
suffix. -/
theorem suffix_check_final_component (p sfx : List Char) (h : '/' ∉ sfx) :
    suffix_check_main p sfx = suffix_check_spec p sfx := by
  unfold suffix_check_spec final_component
  cases hs : strrchr_tail '/' p with
  | none =>
    unfold suffix_check_main
    rfl
  | some t =>
    obtain ⟨⟨q, hq⟩, ⟨r, ht⟩⟩ := strrchr_tail_shape '/' p t hs
    subst ht
    subst hq
    simp only [List.drop_succ_cons, List.drop_zero]
    have hass : q ++ '/' :: r = (q ++ ['/']) ++ r := by simp
    rw [hass]
    unfold suffix_check_main
    cases hr : strrchr_tail '.' r with
    | some u =>
      rw [strrchr_tail_append_isSome '.' (q ++ ['/']) r (by rw [hr]; rfl), hr]
    | none =>
      rw [strrchr_tail_append_none '.' (q ++ ['/']) r hr]
      cases hw : strrchr_tail '.' (q ++ ['/']) with
      | none => rfl
      | some w =>
        obtain ⟨⟨q2, hq2⟩, ⟨r2, hw2⟩⟩ := strrchr_tail_shape '.' (q ++ ['/']) w hw
        have hwne : w ≠ [] := by rw [hw2]; simp
        have hlast : w.getLast? = some '/' := by
          have h2 := List.getLast?_concat (a := '/') q
          rw [hq2, List.getLast?_append_of_ne_nil q2 hwne] at h2
          exact h2
        have hmem : '/' ∈ w ++ r := List.mem_append_left r (List.mem_of_mem_getLast? hlast)
        show decide (w ++ r = sfx) = false
        simp only [decide_eq_false_iff_not]
        intro heq
        rw [heq] at hmem
        exact h hmem

/-- Witness for C7: on the path /a.b/c.php, which carries a dot in a
directory component, the whole-path check and the final-component check
agree for the suffix .php. -/
theorem suffix_check_final_component_witness :
    suffix_check_main (str "/a.b/c.php") (str ".php")
      = suffix_check_spec (str "/a.b/c.php") (str ".php") :=
  suffix_check_final_component (str "/a.b/c.php") (str ".php") (by decide)
